import Mathlib

/-!
Shallow embedding of the lazy-tensor IR core of this repository:
`torch/csrc/lazy/core/shape.cpp` and `torch/csrc/lazy/core/ir.h`.

Machine integers are modelled as `Nat`/`Int` with explicit `% 2 ^ 64`
where the C++ code computes in `size_t`; `c10::optional` is `Option`;
code paths that abort (TORCH_INTERNAL_ASSERT) or perform an invalid
operation (dereference of a disengaged optional) are modelled with
`Except String`.
-/

/-- Embeds `at::ScalarType` (c10/core/ScalarType.h): an enumeration of
element types, modelled by its integer tag. -/
structure ScalarType where
  code : Nat
deriving DecidableEq, Repr

/-- The tag of `at::ScalarType::Float` (float32) in c10's enumeration. -/
def ScalarType.Float : ScalarType := ⟨6⟩

/-- Embeds `torch::lazy::Shape` (shape.h / shape.cpp): a scalar type, a
sequence of signed 64-bit sizes, and optional per-dimension symbolic
markers (`is_symbolic_`, a `c10::optional<std::vector<bool>>` defaulting
to absent). -/
structure Shape where
  scalar_type : ScalarType
  sizes : List Int
  is_symbolic : Option (List Bool) := none
deriving DecidableEq, Repr

/-- Embeds the constructor `Shape::Shape(at::ScalarType, c10::ArrayRef<int64_t>)`
(shape.cpp lines 13-14): it copies the scalar type and the size sequence
unchanged and performs no validation; `is_symbolic_` starts absent. -/
def Shape.ofSizes (scalar_type : ScalarType) (sizes : List Int) : Shape :=
  { scalar_type := scalar_type, sizes := sizes, is_symbolic := none }

/-- Embeds `Shape::operator==` (shape.cpp lines 20-22): compares
`scalar_type_` and `sizes_` only; `is_symbolic_` does not participate. -/
def Shape.eqOp (a b : Shape) : Bool :=
  decide (a.scalar_type = b.scalar_type) && decide (a.sizes = b.sizes)

/-- Conversion of an `int64_t` value to `size_t` (64-bit unsigned):
reduction modulo 2 ^ 64, yielding a natural number below 2 ^ 64. -/
def uint64OfInt (x : Int) : Nat :=
  (x % (2 ^ 64 : Int)).toNat

/-- Embeds `Shape::numel` (shape.cpp lines 28-34): `size_t elts = 1;`
then `elts *= size` over `sizes_`. Each signed size is converted to
`size_t` and the product is accumulated modulo 2 ^ 64. -/
def Shape.numel (s : Shape) : Nat :=
  s.sizes.foldl (fun elts size => elts * uint64OfInt size % 2 ^ 64) 1

/-- Embeds `Shape::hash(bool bakeInSizes)` (shape.cpp lines 36-44).
The hash primitives live in `torch/csrc/lazy/core/hash.h`, outside this
repository slice, so they are taken as parameters: `hashCombine` is
`HashCombine`, `hashScalarType` is `Hash(scalar_type_)`, `dataHash` is
`DataHash(sizes_.data(), sizes_.size() * sizeof(int64_t))` (byte
serialization of a fixed-width integer sequence is injective, so a hash
of the raw bytes factors through the `List Int` of sizes), and
`hashSize` is `Hash(sizes_.size())`. -/
def Shape.hash (hashCombine : Nat → Nat → Nat) (hashScalarType : ScalarType → Nat)
    (dataHash : List Int → Nat) (hashSize : Nat → Nat)
    (s : Shape) (bakeInSizes : Bool) : Nat :=
  if bakeInSizes then
    hashCombine (hashScalarType s.scalar_type) (dataHash s.sizes)
  else
    hashCombine (hashScalarType s.scalar_type) (hashSize s.sizes.length)

/-- Embeds `Shape::with_symbolic_dims` (shape.cpp lines 46-51):
`Shape copy = *this; copy.is_symbolic_ = symbolic_dims; return copy;` —
a copy with the symbolic metadata replaced, no validation of lengths. -/
def Shape.with_symbolic_dims (s : Shape) (symbolic_dims : Option (List Bool)) : Shape :=
  { s with is_symbolic := symbolic_dims }

/-- Embeds the process-wide state behind `symbolicShapeEnabled`
(shape.cpp lines 53-56): the C++ `static bool enabled` local is
initialized from `getenv("LTC_ENABLE_SYMBOLIC_SHAPES") != nullptr` on
the first call only; `cachedEnv` is `none` before that first call and
`some b` afterwards. -/
structure SymbolicFlagState where
  cachedEnv : Option Bool
deriving DecidableEq, Repr

/-- Embeds `symbolicShapeEnabled` (shape.cpp lines 53-56) as a state
transformer. `envVarSet` is whether `LTC_ENABLE_SYMBOLIC_SHAPES` is set
in the environment at the time of the call (consulted only when the
static local is still uninitialized); `flagValue` is the current value
of `FLAGS_ltc_enable_symbolic_shapes`, read afresh on every call. The
function returns `enabled || FLAGS_ltc_enable_symbolic_shapes` together
with the updated static-local state. -/
def symbolicShapeEnabled (st : SymbolicFlagState) (envVarSet : Bool) (flagValue : Bool) :
    Bool × SymbolicFlagState :=
  let enabled := st.cachedEnv.getD envVarSet
  (enabled || flagValue, ⟨some enabled⟩)

/-- Embeds `c10::SymbolicShape`: either unranked (the default-constructed
`c10::SymbolicShape()`) or a ranked sequence of dimensions, each a known
concrete size (`some n`) or unknown/symbolic (`none`). -/
inductive SymbolicShape
  | unranked
  | ranked (dims : List (Option Int))
deriving DecidableEq, Repr

/-- Embeds `c10::SymbolicShape::symbolicDims()`: absent for an unranked
shape; otherwise, for each dimension, whether it is symbolic (its
concrete size is unknown). -/
def SymbolicShape.symbolicDims : SymbolicShape → Option (List Bool)
  | .unranked => none
  | .ranked dims => some (dims.map Option.isNone)

/-- Embeds the `at::Tensor` argument of `get_symbolic_shape` as seen by
that function: `TryGetLtcTensor` either fails — the tensor is a plain
eager tensor carrying concrete `sizes()` — or succeeds, in which case
the lazy tensor's IR value carries a `Shape`. -/
inductive Tensor
  | eager (sizes : List Int)
  | ltc (shape : Shape)
deriving DecidableEq, Repr

/-- Embeds `get_symbolic_shape` (shape.cpp lines 58-82). For an eager
tensor it returns `c10::SymbolicShape(tensor.sizes())` (all concrete);
for a lazy tensor, if the IR shape has no symbolic metadata it returns
the unranked `c10::SymbolicShape()`; otherwise `TORCH_INTERNAL_ASSERT`
requires the metadata length to equal the number of sizes (modelled as
`Except.error`), and each dimension becomes unknown when marked symbolic
and its concrete size otherwise. -/
def get_symbolic_shape : Tensor → Except String SymbolicShape
  | .eager sizes => .ok (.ranked (sizes.map some))
  | .ltc input_shape =>
    match input_shape.is_symbolic with
    | none => .ok .unranked
    | some is_sym =>
      if input_shape.sizes.length = is_sym.length then
        .ok (.ranked ((List.zip input_shape.sizes is_sym).map
          fun p => if p.2 then none else some p.1))
      else .error "Dims of two values are not consistent"

/-- Embeds the `c10::IValue` arguments of `applySymbolicShapesOnLT` as
the three cases its loop distinguishes: a tensor list, a single tensor,
or any other (non-tensor) value, the latter opaque to this code and
modelled by a tag. -/
inductive IValue
  | tensorList (ts : List Tensor)
  | tensor (t : Tensor)
  | other (tag : Nat)
deriving DecidableEq, Repr

/-- Embeds `torch::jit::SSAInput`: either a symbolic shape derived from
a tensor argument or a passed-through non-tensor `IValue`. -/
inductive SSAInput
  | sym (ss : SymbolicShape)
  | val (v : IValue)
deriving DecidableEq, Repr

/-- Embeds the argument-conversion loop of `applySymbolicShapesOnLT`
(shape.cpp lines 93-108): a tensor list contributes one
`get_symbolic_shape` per element, a tensor contributes one, and any
other value is passed through unchanged. A fatal assertion inside
`get_symbolic_shape` propagates. -/
def convertArgs (args : List IValue) : Except String (List SSAInput) := do
  let groups ← args.mapM fun arg =>
    match arg with
    | .tensorList ts => (ts.mapM get_symbolic_shape).map (List.map SSAInput.sym)
    | .tensor t => (get_symbolic_shape t).map (fun ss => [SSAInput.sym ss])
    | .other _ => pure [SSAInput.val arg]
  pure groups.flatten

/-- Embeds `applySymbolicShapesOnLT` (shape.cpp lines 84-125). The
external collaborators are parameters: `calculateSymbolicShapesOnOp` is
the shape-inference engine `jit::calculateSymbolicShapesOnOp` applied to
the already-resolved schema, returning an optional list of per-result
symbolic shapes. When the engine returns an absent optional, the source
enters the `if (!res_symbolic)` branch whose loop bound evaluates
`res_symbolic->size()` — a dereference of the disengaged optional
(undefined behaviour), modelled here as `Except.error`. When a result is
present, `TORCH_INTERNAL_ASSERT` requires as many inference results as
`result_shapes`; then each result whose `symbolicDims()` is present is
applied onto the corresponding result shape via `with_symbolic_dims`,
and the others are left untouched. -/
def applySymbolicShapesOnLT
    (calculateSymbolicShapesOnOp : List SSAInput → Option (List SymbolicShape))
    (args : List IValue) (result_shapes : List Shape) : Except String (List Shape) := do
  let converted_args ← convertArgs args
  match calculateSymbolicShapesOnOp converted_args with
  | none =>
    .error "loop bound res_symbolic-size dereferences a disengaged optional"
  | some res_symbolic =>
    if res_symbolic.length = result_shapes.length then
      .ok ((List.zip result_shapes res_symbolic).map fun p =>
        match p.2.symbolicDims with
        | some sym_dims => p.1.with_symbolic_dims (some sym_dims)
        | none => p.1)
    else .error "Result shape size is not consistent"

/-- Embeds `torch::lazy::OpKind` (ir.h lines 35-61): wraps an interned
`c10::Symbol`, modelled by its unique id; equality is equality of the
underlying symbol. -/
structure OpKind where
  op : Nat
deriving DecidableEq, Repr

/-- Embeds `torch::lazy::Output` (ir.h lines 223-251): a non-owning
pointer to the producing node together with an output index. The
`const Node*` pointer is modelled by the node's address, so `node`
equality is pointer identity. -/
structure Output where
  node : Nat := 0
  index : Nat := 0
deriving DecidableEq, Repr

/-- Embeds `Output::operator==` (ir.h lines 234-236):
`node == rhs.node && index == rhs.index` — pointer identity of the node
plus equality of the index. -/
def Output.eqOp (a b : Output) : Bool :=
  decide (a.node = b.node) && decide (a.index = b.index)

/-- Embeds `Output::operator!=` (ir.h lines 237-239): the negation of
`operator==`. -/
def Output.neOp (a b : Output) : Bool :=
  !(a.eqOp b)

/-- Embeds the `MetaData` slot of a node (ir_metadata.h, outside this
repository slice): opaque to every claim here, modelled by a tag. -/
structure MetaData where
  tag : Nat := 0
deriving DecidableEq, Repr

/-- Embeds `UserMetaData`, the externally defined base class of the
user-attached metadata object: opaque to the node, modelled by a tag
standing for the object's identity. -/
structure UserMetaData where
  tag : Nat
deriving DecidableEq, Repr

/-- Embeds `torch::lazy::Node` (ir.h lines 77-192) as a record of its
fields: the operation identity `op_`, `num_outputs_`, the local
`node_hash_`, the two whole-subgraph hashes `dag_hash_without_sizes_`
and `dag_hash_with_sizes_`, the `metadata_` slot, the optional
user-attached `user_metadata_` (a null `shared_ptr` is `none`), the
declared output `shapes_`, the owned operand list `operands_` (each
`NodePtr` modelled by the owned node's address), and the parallel
non-owning `operands_as_outputs_`. Hash values are 128-bit `hash_t`
values, modelled as `Nat`. -/
structure Node where
  op : OpKind
  num_outputs : Nat := 1
  node_hash : Nat
  dag_hash_without_sizes : Nat
  dag_hash_with_sizes : Nat
  metadata : MetaData := {}
  user_metadata : Option UserMetaData := none
  shapes : List Shape := []
  operands : List Nat := []
  operands_as_outputs : List Output := []
deriving DecidableEq, Repr

/-- Embeds `Node::hash` (ir.h lines 130-132):
`enableDynamicShape() ? dag_hash_without_sizes_ : dag_hash_with_sizes_`.
`Node::enableDynamicShape()` reads the process-wide
`FLAGS_ltc_enable_dynamic_shapes` flag (its definition lives outside
this repository slice), so the flag's current value is a parameter. -/
def Node.hash (enableDynamicShape : Bool) (n : Node) : Nat :=
  if enableDynamicShape then n.dag_hash_without_sizes else n.dag_hash_with_sizes

/-- Embeds `Node::hash_without_sizes` (ir.h lines 134-136). -/
def Node.hash_without_sizes (n : Node) : Nat :=
  n.dag_hash_without_sizes

/-- Embeds `Node::hash_with_sizes` (ir.h lines 138-140). -/
def Node.hash_with_sizes (n : Node) : Nat :=
  n.dag_hash_with_sizes

/-- Embeds `Node::SetUserMetadata` (ir.h lines 150-154):
`std::swap(user_metadata_, user_meta); return user_meta;` — stores the
argument in the node's metadata slot and returns the previously stored
object. The result is the updated node paired with the returned
previous metadata. -/
def Node.SetUserMetadata (n : Node) (user_meta : Option UserMetaData) :
    Node × Option UserMetaData :=
  ({ n with user_metadata := user_meta }, n.user_metadata)

/-- Helper: folding multiplication with reduction modulo 2 ^ 64 at each
step agrees with reducing the plain product once at the end. -/
theorem foldl_mul_mod_eq (l : List Nat) (a : Nat) :
    l.foldl (fun e x => e * x % 2 ^ 64) (a % 2 ^ 64)
      = l.foldl (fun e x => e * x) a % 2 ^ 64 := by
  induction l generalizing a with
  | nil => rfl
  | cons x l ih =>
    simp only [List.foldl_cons]
    rw [Nat.mod_mul_mod, ← ih]

/-- Helper: `Shape.numel` is the product of the unsigned conversions of
the sizes, reduced modulo 2 ^ 64 once. -/
theorem numel_eq_prod_mod (s : Shape) :
    s.numel = (s.sizes.map uint64OfInt).foldl (fun e x => e * x) 1 % 2 ^ 64 := by
  have h := foldl_mul_mod_eq (s.sizes.map uint64OfInt) 1
  rw [List.foldl_map] at h
  exact h

/-- Helper: for sizes within the signed 64-bit range, the product of the
unsigned conversions casts to the plain integer product. -/
theorem foldl_uint64_cast (l : List Int) (hl : ∀ x ∈ l, 0 ≤ x ∧ x < 2 ^ 63) :
    ∀ a : Nat, (((l.map uint64OfInt).foldl (fun e x => e * x) a : Nat) : Int)
      = l.foldl (fun e x => e * x) (a : Int) := by
  induction l with
  | nil => intro a; rfl
  | cons x l ih =>
    intro a
    have hx := hl x (List.mem_cons_self x l)
    have hcast : (uint64OfInt x : Int) = x := by
      unfold uint64OfInt
      rw [Int.emod_eq_of_lt hx.1 (lt_trans hx.2 (by norm_num))]
      exact Int.toNat_of_nonneg hx.1
    simp only [List.map_cons, List.foldl_cons]
    rw [ih (fun y hy => hl y (List.mem_cons_of_mem x hy)) (a * uint64OfInt x)]
    congr 1
    push_cast
    rw [hcast]

/-- C1: when the external shape-inference engine returns an absent
optional, the source does not leave `result_shapes` concrete and return
normally — the `if (!res_symbolic)` branch (shape.cpp lines 110-113)
bounds its loop by `res_symbolic->size()`, dereferencing the disengaged
optional. Evaluating the embedding at such a call (engine returning
`none`, one result shape) yields the error marking that invalid
dereference instead of the untouched shapes the claim requires. -/
theorem applySymbolicShapesOnLT_absent_result_aborts :
    applySymbolicShapesOnLT (fun _ => none) [] [Shape.ofSizes ScalarType.Float [2, 3]]
      = Except.error "loop bound res_symbolic-size dereferences a disengaged optional" := by
  rfl

/-- C2: `Node::hash` returns the size-sensitive subgraph hash when the
dynamic-shape flag is off and the size-insensitive one when it is on,
i.e. it agrees with `hash_with_sizes` respectively `hash_without_sizes`
(ir.h lines 130-140). -/
theorem node_hash_selects_variant_by_flag (n : Node) :
    Node.hash false n = n.hash_with_sizes ∧ Node.hash true n = n.hash_without_sizes :=
  ⟨rfl, rfl⟩

/-- C6: `with_symbolic_dims` keeps the sizes and the scalar type, so the
result compares equal to the original under `operator==` (which ignores
symbolic metadata), while `is_symbolic` becomes exactly the argument;
in particular passing `none` clears it. The original is unchanged by
construction (the embedding is a pure copy, as is the source's
`Shape copy = *this`). -/
theorem with_symbolic_dims_preserves_identity (s : Shape) (d : Option (List Bool)) :
    (s.with_symbolic_dims d).sizes = s.sizes
    ∧ (s.with_symbolic_dims d).scalar_type = s.scalar_type
    ∧ Shape.eqOp (s.with_symbolic_dims d) s = true
    ∧ (s.with_symbolic_dims d).is_symbolic = d
    ∧ (s.with_symbolic_dims none).is_symbolic = none := by
  refine ⟨rfl, rfl, ?_, rfl, rfl⟩
  simp [Shape.eqOp, Shape.with_symbolic_dims]

/-- C8: `Output::operator==` holds exactly when the two outputs point at
the same node (pointer identity) and carry the same index; two outputs
of distinct nodes with index 0 are unequal, and an output equals itself
(ir.h lines 234-239). -/
theorem output_equality_is_node_identity_and_index (a b : Output) (nodeA nodeB : Nat)
    (h : nodeA ≠ nodeB) :
    (a.eqOp b = true ↔ a.node = b.node ∧ a.index = b.index)
    ∧ Output.neOp ⟨nodeA, 0⟩ ⟨nodeB, 0⟩ = true
    ∧ Output.eqOp ⟨nodeA, 0⟩ ⟨nodeA, 0⟩ = true := by
  refine ⟨?_, ?_, ?_⟩
  · simp [Output.eqOp]
  · simp [Output.neOp, Output.eqOp, h]
  · simp [Output.eqOp]

/-- Witness for C8 at concrete outputs: node addresses 1 and 2. -/
theorem output_equality_is_node_identity_and_index_witness :
    ((Output.mk 1 0).eqOp (Output.mk 1 0) = true
      ↔ (Output.mk 1 0).node = (Output.mk 1 0).node
        ∧ (Output.mk 1 0).index = (Output.mk 1 0).index)
    ∧ Output.neOp ⟨1, 0⟩ ⟨2, 0⟩ = true
    ∧ Output.eqOp ⟨1, 0⟩ ⟨1, 0⟩ = true :=
  output_equality_is_node_identity_and_index ⟨1, 0⟩ ⟨1, 0⟩ 1 2 (by decide)

/-- C9: `Node::SetUserMetadata` stores the given metadata object and
returns the previously stored one (`none` when none was set), leaving
every other attribute of the node — operation identity, number of
outputs, local hash, both subgraph hashes, the IR metadata slot, the
shapes, and both operand lists — unchanged (ir.h lines 150-154). -/
theorem setUserMetadata_replace_and_return_previous (n : Node) (m : Option UserMetaData) :
    (n.SetUserMetadata m).1.user_metadata = m
    ∧ (n.SetUserMetadata m).2 = n.user_metadata
    ∧ (n.SetUserMetadata m).1.op = n.op
    ∧ (n.SetUserMetadata m).1.num_outputs = n.num_outputs
    ∧ (n.SetUserMetadata m).1.node_hash = n.node_hash
    ∧ (n.SetUserMetadata m).1.dag_hash_without_sizes = n.dag_hash_without_sizes
    ∧ (n.SetUserMetadata m).1.dag_hash_with_sizes = n.dag_hash_with_sizes
    ∧ (n.SetUserMetadata m).1.metadata = n.metadata
    ∧ (n.SetUserMetadata m).1.shapes = n.shapes
    ∧ (n.SetUserMetadata m).1.operands = n.operands
    ∧ (n.SetUserMetadata m).1.operands_as_outputs = n.operands_as_outputs :=
  ⟨rfl, rfl, rfl, rfl, rfl, rfl, rfl, rfl, rfl, rfl, rfl⟩

/-- C3: `Shape::hash` has exactly the two behaviours of shape.cpp lines
36-44 — with `bakeInSizes` it combines the scalar-type hash with the
hash of the size data, without it the scalar-type hash with the hash of
the dimension count — so for any hash primitives and any two shapes of
equal scalar type and equal rank, the size-insensitive variant agrees on
both, while the size-sensitive variant feeds each shape's own size
sequence to the data hash. -/
theorem shape_hash_two_variants (hashCombine : Nat → Nat → Nat)
    (hashScalarType : ScalarType → Nat) (dataHash : List Int → Nat) (hashSize : Nat → Nat)
    (s1 s2 : Shape) (hst : s1.scalar_type = s2.scalar_type)
    (hrank : s1.sizes.length = s2.sizes.length) :
    Shape.hash hashCombine hashScalarType dataHash hashSize s1 false
      = Shape.hash hashCombine hashScalarType dataHash hashSize s2 false
    ∧ Shape.hash hashCombine hashScalarType dataHash hashSize s1 true
      = hashCombine (hashScalarType s1.scalar_type) (dataHash s1.sizes)
    ∧ Shape.hash hashCombine hashScalarType dataHash hashSize s2 true
      = hashCombine (hashScalarType s2.scalar_type) (dataHash s2.sizes)
    ∧ Shape.hash hashCombine hashScalarType dataHash hashSize s1 false
      = hashCombine (hashScalarType s1.scalar_type) (hashSize s1.sizes.length) := by
  refine ⟨?_, rfl, rfl, rfl⟩
  simp [Shape.hash, hst, hrank]

/-- Witness for C3: concrete primitives and the shapes float32[2,3] and
float32[5,7] — equal scalar type and rank, different sizes. -/
theorem shape_hash_two_variants_witness :
    Shape.hash Nat.add (fun st => st.code) List.length Nat.succ
        (Shape.ofSizes ScalarType.Float [2, 3]) false
      = Shape.hash Nat.add (fun st => st.code) List.length Nat.succ
        (Shape.ofSizes ScalarType.Float [5, 7]) false
    ∧ Shape.hash Nat.add (fun st => st.code) List.length Nat.succ
        (Shape.ofSizes ScalarType.Float [2, 3]) true
      = Nat.add ((Shape.ofSizes ScalarType.Float [2, 3]).scalar_type.code)
          (List.length (Shape.ofSizes ScalarType.Float [2, 3]).sizes)
    ∧ Shape.hash Nat.add (fun st => st.code) List.length Nat.succ
        (Shape.ofSizes ScalarType.Float [5, 7]) true
      = Nat.add ((Shape.ofSizes ScalarType.Float [5, 7]).scalar_type.code)
          (List.length (Shape.ofSizes ScalarType.Float [5, 7]).sizes)
    ∧ Shape.hash Nat.add (fun st => st.code) List.length Nat.succ
        (Shape.ofSizes ScalarType.Float [2, 3]) false
      = Nat.add ((Shape.ofSizes ScalarType.Float [2, 3]).scalar_type.code)
          (Nat.succ (List.length (Shape.ofSizes ScalarType.Float [2, 3]).sizes)) :=
  shape_hash_two_variants Nat.add (fun st => st.code) List.length Nat.succ
    (Shape.ofSizes ScalarType.Float [2, 3]) (Shape.ofSizes ScalarType.Float [5, 7]) rfl rfl

/-- C4 counterexample: the claim that the result of `symbolicShapeEnabled`
is the same for every two calls in one process fails — only the
environment check sits behind the function-local static; the flag is
read afresh on every call (shape.cpp line 55). First call with the
environment variable unset and the flag off returns `false`; a second
call after the flag is turned on returns `true`. -/
theorem symbolicShapeEnabled_flag_change_counterexample :
    (symbolicShapeEnabled ⟨none⟩ false false).1 = false
    ∧ (symbolicShapeEnabled (symbolicShapeEnabled ⟨none⟩ false false).2 false true).1 = true := by
  exact ⟨rfl, rfl⟩

/-- C4 amended: `symbolicShapeEnabled` returns the cached environment
check (performed on the first call and cached in the function-local
static) OR-ed with the current value of the
`ltc_enable_symbolic_shapes` flag; only the environment read is cached,
so after the first call the result is insensitive to environment
changes but still tracks flag changes. -/
theorem symbolicShapeEnabled_env_cached_flag_fresh (st : SymbolicFlagState)
    (env flag : Bool) :
    (symbolicShapeEnabled st env flag).1 = (st.cachedEnv.getD env || flag)
    ∧ (symbolicShapeEnabled st env flag).2 = ⟨some (st.cachedEnv.getD env)⟩
    ∧ (∀ c env2, (symbolicShapeEnabled ⟨some c⟩ env flag).1
        = (symbolicShapeEnabled ⟨some c⟩ env2 flag).1) :=
  ⟨rfl, rfl, fun _ _ => rfl⟩

/-- C5 counterexample: `with_symbolic_dims` neither asserts nor rejects
a symbolic-dims sequence whose length differs from the dimension count
(shape.cpp lines 46-51 copy the argument in without validation): on the
2-dimensional shape float32[2,3] and a 3-element sequence it returns a
`Shape` carrying the mismatched metadata. -/
theorem with_symbolic_dims_no_length_check_counterexample :
    ((Shape.ofSizes ScalarType.Float [2, 3]).with_symbolic_dims
        (some [true, false, true])).is_symbolic = some [true, false, true]
    ∧ ((Shape.ofSizes ScalarType.Float [2, 3]).with_symbolic_dims
        (some [true, false, true])).sizes.length = 2
    ∧ (2 : Nat) ≠ 3 := by
  exact ⟨rfl, rfl, by decide⟩

/-- C5 amended: `with_symbolic_dims` installs the given metadata without
any length validation, so it can produce a `Shape` violating the
length invariant; the invariant is instead enforced where such a shape
is consumed — `get_symbolic_shape` hits the fatal assertion
`TORCH_INTERNAL_ASSERT(sizes.size() == is_symbolic->size())`
(shape.cpp lines 70-72) on any lazy tensor whose shape carries
mismatched symbolic metadata. -/
theorem symbolic_dims_invariant_enforced_at_consumption (s : Shape)
    (d : Option (List Bool)) (l : List Bool) (hsym : s.is_symbolic = some l)
    (hlen : s.sizes.length ≠ l.length) :
    (s.with_symbolic_dims d).is_symbolic = d
    ∧ get_symbolic_shape (Tensor.ltc s)
        = Except.error "Dims of two values are not consistent" := by
  refine ⟨rfl, ?_⟩
  simp only [get_symbolic_shape]
  rw [hsym]
  simp [hlen]

/-- Witness for C5 at a concrete violating shape: float32[2,3] with
3-element symbolic metadata. -/
theorem symbolic_dims_invariant_enforced_at_consumption_witness :
    (((Shape.ofSizes ScalarType.Float [2, 3]).with_symbolic_dims
        (some [true, false, true])).with_symbolic_dims none).is_symbolic = none
    ∧ get_symbolic_shape (Tensor.ltc ((Shape.ofSizes ScalarType.Float [2, 3]).with_symbolic_dims
        (some [true, false, true])))
        = Except.error "Dims of two values are not consistent" :=
  symbolic_dims_invariant_enforced_at_consumption
    ((Shape.ofSizes ScalarType.Float [2, 3]).with_symbolic_dims (some [true, false, true]))
    none [true, false, true] rfl (by decide)

/-- C7 counterexample: `numel` accumulates in `size_t`, i.e. modulo
2 ^ 64, so it is not the plain product of the sizes for every `Shape`:
on float32[4294967296, 4294967296] the product of the entries is 2 ^ 64
while `numel` wraps to 0. -/
theorem numel_overflow_counterexample :
    (Shape.ofSizes ScalarType.Float [4294967296, 4294967296]).numel = 0
    ∧ (Shape.ofSizes ScalarType.Float [4294967296, 4294967296]).sizes.foldl
        (fun e x => e * x) (1 : Int) = 18446744073709551616
    ∧ ((0 : Int) ≠ 18446744073709551616) := by
  refine ⟨by decide, by decide, by decide⟩

/-- C7 amended: for every `Shape` whose sizes lie in the signed 64-bit
range and are non-negative, and whose plain size product stays below
2 ^ 64 (no `size_t` overflow), `numel` equals the product of all sizes;
the empty product is 1. In particular `numel` of float32[3,4,0] is 0
and `numel` of float32[] is 1 (shape.cpp lines 28-34). -/
theorem numel_product_of_sizes (s : Shape)
    (hrange : ∀ x ∈ s.sizes, 0 ≤ x ∧ x < 2 ^ 63)
    (hsmall : s.sizes.foldl (fun e x => e * x) (1 : Int) < 2 ^ 64) :
    (s.numel : Int) = s.sizes.foldl (fun e x => e * x) (1 : Int)
    ∧ (Shape.ofSizes ScalarType.Float [3, 4, 0]).numel = 0
    ∧ (Shape.ofSizes ScalarType.Float []).numel = 1 := by
  refine ⟨?_, by decide, rfl⟩
  have hcast := foldl_uint64_cast s.sizes hrange 1
  rw [Nat.cast_one] at hcast
  have hprod : (s.sizes.map uint64OfInt).foldl (fun e x => e * x) 1 < 2 ^ 64 := by
    have h2 : (((s.sizes.map uint64OfInt).foldl (fun e x => e * x) 1 : Nat) : Int)
        < 2 ^ 64 := by
      rw [hcast]; exact hsmall
    exact_mod_cast h2
  rw [numel_eq_prod_mod s, Nat.mod_eq_of_lt hprod]
  exact hcast

/-- Witness for C7 at the concrete shape float32[3,4,0]: all sizes are
non-negative and in range, the product 0 does not overflow, and `numel`
equals it. -/
theorem numel_product_of_sizes_witness :
    ((Shape.ofSizes ScalarType.Float [3, 4, 0]).numel : Int)
      = (Shape.ofSizes ScalarType.Float [3, 4, 0]).sizes.foldl (fun e x => e * x) (1 : Int)
    ∧ (Shape.ofSizes ScalarType.Float [3, 4, 0]).numel = 0
    ∧ (Shape.ofSizes ScalarType.Float []).numel = 1 :=
  numel_product_of_sizes (Shape.ofSizes ScalarType.Float [3, 4, 0])
    (by decide) (by decide)

/-- C10: the `Shape` constructor copies any signed 64-bit size sequence
in without validation — negative entries included — and `numel`
converts each size to an unsigned 64-bit value and returns their
product modulo 2 ^ 64: a single negative dimension wraps to a huge
value instead of failing (float32[-1] has numel 2 ^ 64 - 1, and
float32[3,-1] has numel 2 ^ 64 - 3). -/
theorem numel_negative_sizes_wraps_unsigned (st : ScalarType) (sizes : List Int) :
    (Shape.ofSizes st sizes).sizes = sizes
    ∧ (Shape.ofSizes st sizes).scalar_type = st
    ∧ (Shape.ofSizes st sizes).numel
        = (sizes.map uint64OfInt).foldl (fun e x => e * x) 1 % 2 ^ 64
    ∧ (Shape.ofSizes ScalarType.Float [-1]).numel = 18446744073709551615
    ∧ (Shape.ofSizes ScalarType.Float [3, -1]).numel = 18446744073709551613 :=
  ⟨rfl, rfl, numel_eq_prod_mod (Shape.ofSizes st sizes), by decide, by decide⟩
